import Mathlib

/-!
Shallow embedding of the StockSimulator ledger & transaction engine
(src/portfolio.py, src/transaction_manager.py, src/validators.py,
src/analytics.py, src/models/transaction.py).

Modelling conventions:
* Python floats are modelled as exact rationals (ℚ).
* A Python `dict` is modelled as an association list with unique keys in
  insertion order; `dictGet`/`dictSet`/`dictPop` mirror `d.get`, `d[k] = v`
  and `d.pop(k, None)`.
* Methods that mutate `self.portfolio` in place are translated to
  state-passing functions returning the portfolio after the call together
  with the raised exception (if any).
* `str.strip()` / `str.upper()` are modelled by `pyStrip` / `pyUpper` below,
  defined directly over the character list (tickers in this repository are
  ASCII, where `Char.toUpper` agrees with Python's `str.upper`).
-/

namespace StockSim

instance {ε α : Type} [DecidableEq ε] [DecidableEq α] : DecidableEq (Except ε α) := fun x y =>
  match x, y with
  | .error e, .error f =>
    if h : e = f then .isTrue (h ▸ rfl) else .isFalse (fun hc => h (Except.error.inj hc))
  | .error _, .ok _ => .isFalse (fun hc => Except.noConfusion hc)
  | .ok _, .error _ => .isFalse (fun hc => Except.noConfusion hc)
  | .ok a, .ok b =>
    if h : a = b then .isTrue (h ▸ rfl) else .isFalse (fun hc => h (Except.ok.inj hc))

/-- Python `str.upper()` (ASCII). -/
def pyUpper (s : String) : String := ⟨s.data.map Char.toUpper⟩

/-- Python `str.strip()`: drop leading and trailing whitespace. -/
def pyStrip (s : String) : String :=
  ⟨((s.data.dropWhile Char.isWhitespace).reverse.dropWhile Char.isWhitespace).reverse⟩

/-- Python dict lookup `d.get(k)` on an association list. -/
def dictGet {α : Type} : List (String × α) → String → Option α
  | [], _ => Option.none
  | (k, v) :: rest, key => if k = key then some v else dictGet rest key

/-- Python dict assignment `d[k] = v`: replace in place if present, else append. -/
def dictSet {α : Type} : List (String × α) → String → α → List (String × α)
  | [], key, v => [(key, v)]
  | (k, w) :: rest, key, v =>
    if k = key then (k, v) :: rest else (k, w) :: dictSet rest key v

/-- Python `d.pop(k, None)`: drop the entry with the given key. -/
def dictPop {α : Type} : List (String × α) → String → List (String × α)
  | [], _ => []
  | (k, w) :: rest, key => if k = key then rest else (k, w) :: dictPop rest key

/-- Python `d.setdefault(k, 0.0)` restricted to its effect on the dict. -/
def dictSetdefault (h : List (String × ℚ)) (key : String) : List (String × ℚ) :=
  if (dictGet h key).isSome then h else h ++ [(key, 0)]

/-- Holdings mapping ticker → quantity, as stored in `Portfolio.holdings`. -/
abbrev Holdings := List (String × ℚ)

/-- Models `holdings.get(t, 0.0)`. -/
def hGet (h : Holdings) (t : String) : ℚ := (dictGet h t).getD 0

/-- The Portfolio dataclass of src/portfolio.py (cash + holdings). -/
structure Portfolio where
  cash : ℚ
  holdings : Holdings
deriving DecidableEq, Repr

/-- Models `Portfolio()`: the default-constructed portfolio (cash = 10000, empty holdings). -/
def defaultPortfolio : Portfolio := ⟨10000, []⟩

/-! ### Validators (src/validators.py) -/

/-- Models `normalize_ticker`: empty input stays empty, else strip + uppercase. -/
def normalize_ticker (raw : String) : String :=
  if raw = "" then "" else pyUpper (pyStrip raw)

/-- Models `validate_ticker`: the normalized ticker must be non-empty. -/
def validate_ticker (t : String) : Except Unit String :=
  let clean := normalize_ticker t
  if clean = "" then .error () else .ok clean

/-- Models `validate_positive_number`: a numeric value must be > 0.
(The model's input is already numeric; the TypeError branch for
non-numeric arguments is outside every claim.) -/
def validate_positive_number (q : ℚ) : Except Unit ℚ :=
  if q ≤ 0 then .error () else .ok q

/-! ### Price provider results -/

/-- Python values a price provider can return. `float(str)` parsing of
numeric strings is not modelled (no claim exercises it); strings count as
non-numeric here exactly as in the engine's `isinstance` check. -/
inductive PyVal where
  | bool (b : Bool)
  | int (n : ℤ)
  | float (q : ℚ)
  | str (s : String)
  | none
deriving DecidableEq, Repr

/-- Models `isinstance(price, (int, float))` — `bool` is a subclass of `int` in Python,
so booleans pass this check. -/
def PyVal.isNumeric : PyVal → Bool
  | .bool _ => true
  | .int _ => true
  | .float _ => true
  | _ => false

/-- Models `float(price)` on the values that pass the isinstance check. -/
def PyVal.toFloat : PyVal → ℚ
  | .bool b => if b then 1 else 0
  | .int n => (n : ℚ)
  | .float q => q
  | _ => 0

/-! ### Transaction engine (src/transaction_manager.py) -/

/-- The TransactionError hierarchy of src/transaction_manager.py. -/
inductive TxError where
  | invalidTicker
  | invalidQuantity
  | marketClosed
  | priceFetch
  | insufficientFunds
  | insufficientHoldings
deriving DecidableEq, Repr

/-- What `self.price_provider(ticker)` did: raised (`.error`) or returned a value. -/
abbrev PriceResult := Except Unit PyVal

/-- The optional market-open check: `none` when not configured, otherwise
the outcome of calling it (it may itself raise). -/
abbrev MarketCheck := Option (Except Unit Bool)

/-- Models `TransactionManager._get_price`: provider exceptions, non-numeric results and
non-positive values all map to PriceFetchError. -/
def _get_price (r : PriceResult) : Except TxError ℚ :=
  match r with
  | .error _ => .error .priceFetch
  | .ok v =>
    if v.isNumeric then
      let price_f := v.toFloat
      if price_f ≤ 0 then .error .priceFetch else .ok price_f
    else .error .priceFetch

/-- Models `TransactionManager._ensure_market_open`: no check configured → pass;
check raises → fail open; check returns false → MarketClosedError. -/
def _ensure_market_open (mc : MarketCheck) : Except TxError Unit :=
  match mc with
  | Option.none => .ok ()
  | some (.error _) => .ok ()
  | some (.ok is_open) => if is_open then .ok () else .error .marketClosed

/-- The Transaction record as constructed at the call sites in
`TransactionManager.buy`/`sell` (src/transaction_manager.py).  The wall-clock
`timestamp` string carries no ledger information and is omitted from the
record model; the fact that the frozen dataclass in
src/models/transaction.py does not even declare that field is modelled
separately below (`transaction_dataclass_fields`). -/
structure Transaction where
  kind : String
  ticker : String
  quantity : ℚ
  price : ℚ
  gross_amount : ℚ
  cash_after : ℚ
deriving DecidableEq, Repr

namespace TransactionManager

/-- Models `TransactionManager.buy`, translated statement by statement.  Returns the
portfolio after the call together with the outcome; snapshot/history writes
are I/O side effects that never touch the ledger and are not modelled. -/
def buy (pf : Portfolio) (ticker : String) (amount : ℚ)
    (priceRes : PriceResult) (mc : MarketCheck) :
    Portfolio × Except TxError Transaction :=
  match validate_ticker ticker with
  | .error _ => (pf, .error .invalidTicker)
  | .ok clean_ticker =>
  match validate_positive_number amount with
  | .error _ => (pf, .error .invalidQuantity)
  | .ok qty =>
  match _ensure_market_open mc with
  | .error e => (pf, .error e)
  | .ok _ =>
  match _get_price priceRes with
  | .error e => (pf, .error e)
  | .ok price =>
  let total_cost := qty * price
  if pf.cash < total_cost then (pf, .error .insufficientFunds)
  else
    -- mutate after all checks => atomic on expected failures
    let cash' := pf.cash - total_cost
    let holdings' := dictSet pf.holdings clean_ticker (hGet pf.holdings clean_ticker + qty)
    let pf' : Portfolio := ⟨cash', holdings'⟩
    (pf', .ok ⟨"buy", clean_ticker, qty, price, total_cost, pf'.cash⟩)

/-- Models `TransactionManager.sell`, translated statement by statement.  Note the
source checks holdings sufficiency *before* fetching the price. -/
def sell (pf : Portfolio) (ticker : String) (amount : ℚ)
    (priceRes : PriceResult) (mc : MarketCheck) :
    Portfolio × Except TxError Transaction :=
  match validate_ticker ticker with
  | .error _ => (pf, .error .invalidTicker)
  | .ok clean_ticker =>
  match validate_positive_number amount with
  | .error _ => (pf, .error .invalidQuantity)
  | .ok qty =>
  match _ensure_market_open mc with
  | .error e => (pf, .error e)
  | .ok _ =>
  let owned := hGet pf.holdings clean_ticker
  if owned < qty then (pf, .error .insufficientHoldings)
  else
  match _get_price priceRes with
  | .error e => (pf, .error e)
  | .ok price =>
  let total_proceeds := qty * price
  let cash' := pf.cash + total_proceeds
  let remaining := owned - qty
  let holdings' :=
    if remaining ≤ 0 then dictPop pf.holdings clean_ticker
    else dictSet pf.holdings clean_ticker remaining
  let pf' : Portfolio := ⟨cash', holdings'⟩
  (pf', .ok ⟨"sell", clean_ticker, qty, price, total_proceeds, pf'.cash⟩)

end TransactionManager

/-- Field names of the frozen `Transaction` dataclass in
src/models/transaction.py (its generated `__init__` accepts exactly these). -/
def transaction_dataclass_fields : List String :=
  ["kind", "ticker", "quantity", "price", "gross_amount", "cash_after"]

/-- Keyword arguments passed to `Transaction(...)` by `TransactionManager.buy`
and `TransactionManager.sell` (src/transaction_manager.py lines 121–129, 179–187). -/
def engine_transaction_call_kwargs : List String :=
  ["kind", "ticker", "quantity", "price", "gross_amount", "cash_after", "timestamp"]

/-- A Python dataclass `__init__` call with keyword arguments succeeds iff every
keyword names a declared field and every (required) field is supplied;
otherwise it raises TypeError. -/
def dataclass_call_accepted (fields kwargs : List String) : Bool :=
  kwargs.all (fun k => fields.contains k) && fields.all (fun f => kwargs.contains f)

/-! ### Ledger-level buy (src/portfolio.py, `Portfolio.buy`) -/

/-- Models `Portfolio.buy(ticker, quantity, price)`: the only check is `cost > cash`;
the autosave call at the end is file I/O with no effect on cash/holdings and
is not modelled.  Returns the portfolio after the call and the outcome
(`.error ()` models the raised ValueError "Insufficient funds"). -/
def Portfolio.buy (pf : Portfolio) (ticker : String) (quantity price : ℚ) :
    Portfolio × Except Unit Unit :=
  let cost := quantity * price
  if cost > pf.cash then (pf, .error ())
  else
    let cash' := pf.cash - cost
    let current_qty := hGet pf.holdings ticker
    let holdings' := dictSet pf.holdings ticker (current_qty + quantity)
    (⟨cash', holdings'⟩, .ok ())

/-! ### Analytics (src/analytics.py) -/

/-- Models `round(y)` in Python 3: round half to even, as an integer. -/
def pyRoundInt (y : ℚ) : ℤ :=
  let f := ⌊y⌋
  let r := y - f
  if r < 1/2 then f
  else if 1/2 < r then f + 1
  else if f % 2 = 0 then f else f + 1

/-- Models `round(x, 4)` applied to exact rationals. -/
def round4 (x : ℚ) : ℚ := (pyRoundInt (x * 10000) : ℚ) / 10000

/-- One normalized transaction row (the schema `compute_pl` expects:
ticker, side, quantity, price). -/
structure TxRow where
  ticker : String
  side : String
  quantity : ℚ
  price : ℚ
deriving DecidableEq, Repr

/-- One raw row of the transactions file before normalization; `quantity`
and `price` are `Option ℚ` because `pd.to_numeric(..., errors="coerce")`
turns unparsable entries into NaN, which `dropna` then removes. -/
structure RawRow where
  ticker : String
  side : String
  quantity : Option ℚ
  price : Option ℚ

/-- Models `normalize_transactions_df`, row-wise: strip/uppercase ticker and side,
keep only rows with side BUY/SELL and positive quantity and price. -/
def normalizeRow (r : RawRow) : Option TxRow :=
  match r.quantity, r.price with
  | some q, some p =>
    let t := pyUpper (pyStrip r.ticker)
    let s := pyUpper (pyStrip r.side)
    if (s = "BUY" ∨ s = "SELL") ∧ 0 < q ∧ 0 < p then some ⟨t, s, q, p⟩ else Option.none
  | _, _ => Option.none

def normalize_transactions_df (rs : List RawRow) : List TxRow :=
  rs.filterMap normalizeRow

/-- The states the transactions file can be in when `load_transactions_df`
reads it. -/
inductive TxFile where
  | missing
  | unreadable
  | parsed (rows : List RawRow)

/-- Models `load_transactions_df`: missing or unreadable file → empty DataFrame,
otherwise the normalized rows. -/
def load_transactions_df : TxFile → List TxRow
  | .missing => []
  | .unreadable => []
  | .parsed rows => normalize_transactions_df rows

/-- State of the realized-P/L pass: the `total_cost` and `total_qty` dicts
and the running `realized_pl`. -/
abbrev PLState := Holdings × Holdings × ℚ

/-- One iteration of the realized-P/L loop of `compute_pl`.  As in the
source, any side other than "BUY" falls through to the SELL branch. -/
def plStep (st : PLState) (row : TxRow) : PLState :=
  let total_cost := dictSetdefault st.1 row.ticker
  let total_qty := dictSetdefault st.2.1 row.ticker
  let realized_pl := st.2.2
  if row.side = "BUY" then
    (dictSet total_cost row.ticker (hGet total_cost row.ticker + row.quantity * row.price),
     dictSet total_qty row.ticker (hGet total_qty row.ticker + row.quantity),
     realized_pl)
  else
    -- SELL
    if hGet total_qty row.ticker ≤ 0 then
      (total_cost, total_qty, realized_pl)  -- sell without holdings: warn and skip
    else
      let avg_cost := hGet total_cost row.ticker / hGet total_qty row.ticker
      let sold := min row.quantity (hGet total_qty row.ticker)
      (dictSet total_cost row.ticker (hGet total_cost row.ticker - avg_cost * sold),
       dictSet total_qty row.ticker (hGet total_qty row.ticker - sold),
       realized_pl + (row.price - avg_cost) * sold)

/-- The per-ticker entry of `compute_pl`'s result. -/
structure PerTicker where
  qty : ℚ
  avg_cost : ℚ
  latest_price : ℚ
  unrealized_pl : ℚ
deriving DecidableEq, Repr

/-- The dict `compute_pl` returns. -/
structure PLResult where
  no_data : Bool
  realized_pl : ℚ
  unrealized_pl : ℚ
  total_pl : ℚ
  per_ticker : List (String × PerTicker)
deriving DecidableEq, Repr

/-- Models `{k.upper(): float(v) for k, v in (latest_prices or {}).items()}`. -/
def normalizePrices (l : Holdings) : Holdings :=
  l.foldl (fun acc kv => dictSet acc (pyUpper kv.1) kv.2) []

/-- One iteration of the unrealized-P/L loop: skip non-positive remainders,
prefer the injected price, else fetch (a failed fetch skips the ticker). -/
def unrealStep (total_cost : Holdings) (latest_prices : Holdings)
    (fetch : String → Option ℚ) (acc : ℚ × List (String × PerTicker))
    (e : String × ℚ) : ℚ × List (String × PerTicker) :=
  let ticker := e.1
  let qty_left := e.2
  if qty_left ≤ 0 then acc
  else
    let avg_cost := hGet total_cost ticker / qty_left
    let latest? :=
      match dictGet latest_prices ticker with
      | some p => some p
      | Option.none => fetch ticker
    match latest? with
    | Option.none => acc
    | some latest =>
      let u := (latest - avg_cost) * qty_left
      (acc.1 + u, acc.2 ++ [(ticker, ⟨round4 qty_left, round4 avg_cost, round4 latest, round4 u⟩)])

/-- Models `compute_pl` over an already-loaded row list (`df` argument), injected
latest prices and a price fetcher (`fetch t = none` models a fetcher that
raises for `t`). -/
def compute_pl (rows : List TxRow) (latest_prices : Holdings)
    (fetch : String → Option ℚ) : PLResult :=
  if rows.isEmpty then ⟨true, 0, 0, 0, []⟩
  else
    let latest := normalizePrices latest_prices
    let st : PLState := rows.foldl plStep ([], [], 0)
    let realized_pl := st.2.2
    let unreal := st.2.1.foldl (unrealStep st.1 latest fetch) (0, [])
    ⟨false, round4 realized_pl, round4 unreal.1, round4 (realized_pl + unreal.1), unreal.2⟩

/-! ### Ledger persistence (src/portfolio.py: save / parse_portfolio_dict / load_portfolio) -/

/-- JSON values as produced by `json.loads`.  Object keys are strings and
unique; arrays are collapsed to a single constructor since no field of the
portfolio schema inspects their elements. -/
inductive Json where
  | null
  | bool (b : Bool)
  | num (q : ℚ)
  | str (s : String)
  | arr
  | obj (fields : List (String × Json))

/-- Python `x == 1` against the schema version constant: `1 == 1`, `1.0 == 1`
and `True == 1` hold; strings, None, containers never equal `1`. -/
def pyEqOne : Json → Bool
  | .num q => q = 1
  | .bool b => b
  | _ => false

/-- Python `float(x)` for JSON-decoded values: numbers and booleans convert
(`float(True) = 1.0`); None/containers raise TypeError.  Numeric strings
would also convert in Python, but a saved portfolio never contains them and
no claim depends on them, so strings are mapped to failure here. -/
def pyFloat : Json → Option ℚ
  | .num q => some q
  | .bool b => some (if b then 1 else 0)
  | _ => Option.none

/-- The per-entry loop of `parse_portfolio_dict` over `holdings.items()`,
threading the `holdings = {}` accumulator: empty-after-strip tickers and
non-numeric or negative quantities raise ValueError; zero quantities are
skipped; positive ones are stored under the uppercased ticker.
(`isinstance(qty_raw, (int, float))` again accepts booleans.) -/
def parseHoldings : List (String × Json) → Holdings → Except Unit Holdings
  | [], acc => .ok acc
  | (ticker, qtyRaw) :: rest, acc =>
    if pyStrip ticker = "" then .error ()
    else
      match pyFloat qtyRaw with
      | Option.none => .error ()
      | some qty =>
        if qty < 0 then .error ()
        else if 0 < qty then parseHoldings rest (dictSet acc (pyUpper ticker) qty)
        else parseHoldings rest acc

/-- Models `parse_portfolio_dict(data)`: schema version must equal 1, cash must be
present, numeric and non-negative, holdings (default `{}`) must be a dict of
valid entries. -/
def parse_portfolio_dict (data : List (String × Json)) : Except Unit Portfolio :=
  match dictGet data "schema_version" with
  | Option.none => .error ()
  | some version =>
    if ¬ pyEqOne version then .error ()
    else
      match dictGet data "cash" with
      | Option.none => .error ()
      | some cashRaw =>
        match pyFloat cashRaw with
        | Option.none => .error ()
        | some cash =>
          if cash < 0 then .error ()
          else
            match (dictGet data "holdings").getD (.obj []) with
            | .obj entries =>
              match parseHoldings entries [] with
              | .error e => .error e
              | .ok holdings => .ok ⟨cash, holdings⟩
            | _ => .error ()

/-- The states the portfolio file can be in when `load_portfolio` reads it. -/
inductive FileState where
  | missing
  | notAFile
  | unreadable
  | content (j : Json)

/-- Models `load_portfolio`: every failure path (missing path, not a file, unreadable
or invalid JSON, non-dict JSON — whose `.get` raises AttributeError, caught by
the blanket handler — or a ValueError from `parse_portfolio_dict`) logs and
returns `Portfolio()`; only a fully valid file yields the parsed portfolio. -/
def load_portfolio : FileState → Portfolio
  | .missing => defaultPortfolio
  | .notAFile => defaultPortfolio
  | .unreadable => defaultPortfolio
  | .content (.obj fields) =>
    match parse_portfolio_dict fields with
    | .ok portfolio => portfolio
    | .error _ => defaultPortfolio
  | .content _ => defaultPortfolio

/-- The JSON payload written by `Portfolio.save` (`schema_version`, `saved_at`,
then `to_dict()`: cash and holdings).  `_atomic_write_json` plus `json.loads`
round-trips this value exactly (Python float repr round-trips), so the
file content after a successful save is this object. -/
def savePayload (pf : Portfolio) (saved_at : String) : Json :=
  .obj ([("schema_version", .num 1), ("saved_at", .str saved_at)]
    ++ [("cash", .num pf.cash), ("holdings", .obj (pf.holdings.map (fun kv => (kv.1, .num kv.2))))])

/-! ### Invariants and failure predicates used by the claims -/

/-- The ledger invariant of spec §3: cash never negative, every stored
holding strictly positive. -/
def Portfolio.Invariant (pf : Portfolio) : Prop :=
  0 ≤ pf.cash ∧ ∀ kv ∈ pf.holdings, 0 < kv.2

/-- Structural well-formedness of the holdings dict model: a Python dict
has unique keys. -/
def Portfolio.KeysNodup (pf : Portfolio) : Prop :=
  (pf.holdings.map Prod.fst).Nodup

/-- schema_version absent, or present but not (Python-)equal to the
supported version 1. -/
def schemaBad (fields : List (String × Json)) : Prop :=
  dictGet fields "schema_version" = Option.none
  ∨ ∃ v, dictGet fields "schema_version" = some v ∧ pyEqOne v = false

/-- A cash field present, convertible, and negative. -/
def cashValueBad (fields : List (String × Json)) : Prop :=
  ∃ c q, dictGet fields "cash" = some c ∧ pyFloat c = some q ∧ q < 0

/-- One malformed holdings entry: blank ticker, non-numeric quantity, or
negative quantity. -/
def holdingsEntryBad (kv : String × Json) : Prop :=
  pyStrip kv.1 = ""
  ∨ pyFloat kv.2 = Option.none
  ∨ ∃ q, pyFloat kv.2 = some q ∧ q < 0

/-- A malformed holdings value: not a dict, or a dict with a bad entry. -/
def holdingsJsonBad : Json → Prop
  | .obj entries => ∃ kv ∈ entries, holdingsEntryBad kv
  | _ => True

def holdingsBad (fields : List (String × Json)) : Prop :=
  ∃ h, dictGet fields "holdings" = some h ∧ holdingsJsonBad h

/-- The file conditions enumerated by the spec under which `load_portfolio`
must fall back to a default ledger: missing path, non-file path, unreadable
or non-JSON content, non-object JSON, bad schema version, negative cash, or
malformed holdings. -/
def badPortfolioFile : FileState → Prop
  | .missing => True
  | .notAFile => True
  | .unreadable => True
  | .content (.obj fields) => schemaBad fields ∨ cashValueBad fields ∨ holdingsBad fields
  | .content _ => True

/-! ### Association-list (dict) lemmas -/

theorem dictGet_mem {α : Type} {h : List (String × α)} {key : String} {v : α}
    (hv : dictGet h key = some v) : (key, v) ∈ h := by
  induction h with
  | nil => simp [dictGet] at hv
  | cons a rest ih =>
    obtain ⟨k, w⟩ := a
    by_cases hk : k = key
    · subst hk
      simp [dictGet] at hv
      simp [hv]
    · simp [dictGet, hk] at hv
      exact List.mem_cons_of_mem _ (ih hv)

theorem hGet_nonneg {h : Holdings} {t : String} (hpos : ∀ kv ∈ h, 0 < kv.2) :
    0 ≤ hGet h t := by
  unfold hGet
  cases hv : dictGet h t with
  | none => simp
  | some v => simpa using (hpos _ (dictGet_mem hv)).le

theorem mem_dictSet {α : Type} {h : List (String × α)} {key : String} {v : α} {kv : String × α}
    (hkv : kv ∈ dictSet h key v) : kv = (key, v) ∨ kv ∈ h := by
  induction h with
  | nil => simpa [dictSet] using hkv
  | cons a rest ih =>
    obtain ⟨k, w⟩ := a
    by_cases hk : k = key
    · subst hk
      rcases (by simpa [dictSet] using hkv : kv = (k, v) ∨ kv ∈ rest) with h1 | h1
      · exact Or.inl h1
      · exact Or.inr (List.mem_cons_of_mem _ h1)
    · rcases (by simpa [dictSet, hk] using hkv : kv = (k, w) ∨ kv ∈ dictSet rest key v) with h1 | h1
      · exact Or.inr (by simp [h1])
      · rcases ih h1 with h2 | h2
        · exact Or.inl h2
        · exact Or.inr (List.mem_cons_of_mem _ h2)

theorem mem_keys_dictSet {α : Type} {h : List (String × α)} {key : String} {v : α} {x : String}
    (hx : x ∈ (dictSet h key v).map Prod.fst) : x ∈ h.map Prod.fst ∨ x = key := by
  rcases List.mem_map.1 hx with ⟨kv, hkv, hfst⟩
  rcases mem_dictSet hkv with h1 | h1
  · right; rw [← hfst, h1]
  · left; exact List.mem_map.2 ⟨kv, h1, hfst⟩

theorem nodup_keys_dictSet {α : Type} {h : List (String × α)} {key : String} {v : α}
    (hnd : (h.map Prod.fst).Nodup) : ((dictSet h key v).map Prod.fst).Nodup := by
  induction h with
  | nil => simp [dictSet]
  | cons a rest ih =>
    obtain ⟨k, w⟩ := a
    simp only [List.map_cons, List.nodup_cons] at hnd
    by_cases hk : k = key
    · subst hk
      simpa [dictSet] using hnd
    · simp only [dictSet, if_neg hk, List.map_cons]
      refine List.nodup_cons.2 ⟨?_, ih hnd.2⟩
      intro hmem
      rcases mem_keys_dictSet (by simpa using hmem) with h1 | h1
      · exact hnd.1 h1
      · exact hk h1

theorem dictPop_sublist {α : Type} (h : List (String × α)) (key : String) :
    List.Sublist (dictPop h key) h := by
  induction h with
  | nil => simp [dictPop]
  | cons a rest ih =>
    obtain ⟨k, w⟩ := a
    by_cases hk : k = key
    · rw [dictPop, if_pos hk]
      exact List.sublist_cons_self (k, w) rest
    · rw [dictPop, if_neg hk]
      exact List.Sublist.cons₂ (k, w) ih

theorem dictGet_eq_none_of_not_mem {α : Type} {h : List (String × α)} {key : String}
    (hx : key ∉ h.map Prod.fst) : dictGet h key = Option.none := by
  induction h with
  | nil => rfl
  | cons a rest ih =>
    obtain ⟨k, w⟩ := a
    simp only [List.map_cons, List.mem_cons] at hx
    push_neg at hx
    have hk : k ≠ key := fun hkk => hx.1 hkk.symm
    simp [dictGet, hk, ih hx.2]

theorem dictGet_dictPop_self {α : Type} {h : List (String × α)} {key : String}
    (hnd : (h.map Prod.fst).Nodup) : dictGet (dictPop h key) key = Option.none := by
  induction h with
  | nil => rfl
  | cons a rest ih =>
    obtain ⟨k, w⟩ := a
    simp only [List.map_cons, List.nodup_cons] at hnd
    by_cases hk : k = key
    · subst hk
      simp only [dictPop, if_pos rfl]
      exact dictGet_eq_none_of_not_mem hnd.1
    · simp [dictPop, dictGet, hk, ih hnd.2]

theorem hGet_dictSet_self {h : Holdings} {key : String} {v : ℚ} :
    hGet (dictSet h key v) key = v := by
  induction h with
  | nil => simp [hGet, dictSet, dictGet]
  | cons a rest ih =>
    obtain ⟨k, w⟩ := a
    by_cases hk : k = key
    · simp [hGet, dictSet, dictGet, hk]
    · simpa [hGet, dictSet, dictGet, hk] using ih

theorem dictSet_append_of_none {α : Type} {h : List (String × α)} {key : String} {v : α}
    (hnone : dictGet h key = Option.none) : dictSet h key v = h ++ [(key, v)] := by
  induction h with
  | nil => rfl
  | cons a rest ih =>
    obtain ⟨k, w⟩ := a
    by_cases hk : k = key
    · simp [dictGet, hk] at hnone
    · simp only [dictGet, if_neg hk] at hnone
      simp [dictSet, hk, ih hnone]

theorem dictGet_append_left_none {α : Type} {a b : List (String × α)} {key : String}
    (hnone : dictGet a key = Option.none) : dictGet (a ++ b) key = dictGet b key := by
  induction a with
  | nil => rfl
  | cons x rest ih =>
    obtain ⟨k, w⟩ := x
    by_cases hk : k = key
    · simp [dictGet, hk] at hnone
    · simp only [dictGet, if_neg hk] at hnone
      simp [dictGet, hk, ih hnone]

/-! ### Small validator and price lemmas -/

theorem validate_positive_number_ok_of_pos {q : ℚ} (hq : 0 < q) :
    validate_positive_number q = .ok q := by
  simp [validate_positive_number, not_le.2 hq]

theorem validate_positive_number_ok_iff {q r : ℚ} :
    validate_positive_number q = .ok r ↔ 0 < q ∧ r = q := by
  unfold validate_positive_number
  by_cases h : q ≤ 0
  · simp only [if_pos h]
    constructor
    · intro hc; exact Except.noConfusion hc
    · rintro ⟨hq, _⟩; linarith
  · simp only [if_neg h]
    constructor
    · intro hc; exact ⟨lt_of_not_le h, (Except.ok.inj hc).symm⟩
    · rintro ⟨_, hr⟩; rw [hr]

theorem _get_price_ok_pos {pr : PriceResult} {p : ℚ} (h : _get_price pr = .ok p) : 0 < p := by
  unfold _get_price at h
  cases pr with
  | error u => simp at h
  | ok v =>
    by_cases hnum : v.isNumeric
    · simp only [hnum, if_true] at h
      by_cases hle : v.toFloat ≤ 0
      · simp [hle] at h
      · simp [hle] at h
        rw [← h]
        exact lt_of_not_le hle
    · simp [hnum] at h

/-! ### Engine characterization lemmas -/

theorem buy_error_unchanged (pf : Portfolio) (t : String) (q : ℚ)
    (pr : PriceResult) (mc : MarketCheck) (e : TxError)
    (h : (TransactionManager.buy pf t q pr mc).2 = .error e) :
    (TransactionManager.buy pf t q pr mc).1 = pf := by
  unfold TransactionManager.buy at h ⊢
  cases hv : validate_ticker t with
  | error u => simp [hv]
  | ok ct =>
    cases hq : validate_positive_number q with
    | error u => simp [hv, hq]
    | ok qty =>
      cases hm : _ensure_market_open mc with
      | error e2 => simp [hv, hq, hm]
      | ok u =>
        cases hp : _get_price pr with
        | error e2 => simp [hv, hq, hm, hp]
        | ok price =>
          by_cases hc : pf.cash < qty * price
          · simp [hv, hq, hm, hp, hc]
          · simp [hv, hq, hm, hp, hc] at h

theorem sell_error_unchanged (pf : Portfolio) (t : String) (q : ℚ)
    (pr : PriceResult) (mc : MarketCheck) (e : TxError)
    (h : (TransactionManager.sell pf t q pr mc).2 = .error e) :
    (TransactionManager.sell pf t q pr mc).1 = pf := by
  unfold TransactionManager.sell at h ⊢
  cases hv : validate_ticker t with
  | error u => simp [hv]
  | ok ct =>
    cases hq : validate_positive_number q with
    | error u => simp [hv, hq]
    | ok qty =>
      cases hm : _ensure_market_open mc with
      | error e2 => simp [hv, hq, hm]
      | ok u =>
        by_cases ho : hGet pf.holdings ct < qty
        · simp [hv, hq, hm, ho]
        · cases hp : _get_price pr with
          | error e2 => simp [hv, hq, hm, ho, hp]
          | ok price => simp [hv, hq, hm, ho, hp] at h

/-- What a buy that returns `.ok` did, in terms of its own transaction record. -/
theorem buy_ok_spec (pf : Portfolio) (t : String) (q : ℚ)
    (pr : PriceResult) (mc : MarketCheck) (pf' : Portfolio) (tx : Transaction)
    (h : TransactionManager.buy pf t q pr mc = (pf', .ok tx)) :
    tx.quantity = q ∧ 0 < tx.quantity ∧ 0 < tx.price
    ∧ _get_price pr = .ok tx.price
    ∧ validate_ticker t = .ok tx.ticker
    ∧ tx.gross_amount = tx.quantity * tx.price
    ∧ tx.quantity * tx.price ≤ pf.cash
    ∧ pf'.cash = pf.cash - tx.quantity * tx.price
    ∧ pf'.holdings = dictSet pf.holdings tx.ticker (hGet pf.holdings tx.ticker + tx.quantity)
    ∧ tx.cash_after = pf'.cash := by
  unfold TransactionManager.buy at h
  cases hv : validate_ticker t with
  | error u => simp [hv] at h
  | ok ct =>
    cases hq : validate_positive_number q with
    | error u => simp [hv, hq] at h
    | ok qty =>
      cases hm : _ensure_market_open mc with
      | error e2 => simp [hv, hq, hm] at h
      | ok u =>
        cases hp : _get_price pr with
        | error e2 => simp [hv, hq, hm, hp] at h
        | ok price =>
          by_cases hc : pf.cash < qty * price
          · simp [hv, hq, hm, hp, hc] at h
          · simp only [hv, hq, hm, hp, if_pos, if_neg hc, Prod.mk.injEq] at h
            obtain ⟨hpf', htx⟩ := h
            have htx' := Except.ok.inj htx
            obtain ⟨hq', hqq⟩ := validate_positive_number_ok_iff.1 hq
            subst htx'
            subst hpf'
            subst hqq
            exact ⟨rfl, hq', _get_price_ok_pos hp, rfl, rfl, rfl, le_of_not_lt hc, rfl, rfl, rfl⟩

/-- What a sell that returns `.ok` did, in terms of its own transaction record. -/
theorem sell_ok_spec (pf : Portfolio) (t : String) (q : ℚ)
    (pr : PriceResult) (mc : MarketCheck) (pf' : Portfolio) (tx : Transaction)
    (h : TransactionManager.sell pf t q pr mc = (pf', .ok tx)) :
    tx.quantity = q ∧ 0 < tx.quantity ∧ 0 < tx.price
    ∧ _get_price pr = .ok tx.price
    ∧ validate_ticker t = .ok tx.ticker
    ∧ tx.quantity ≤ hGet pf.holdings tx.ticker
    ∧ tx.gross_amount = tx.quantity * tx.price
    ∧ pf'.cash = pf.cash + tx.quantity * tx.price
    ∧ pf'.holdings = (if hGet pf.holdings tx.ticker - tx.quantity ≤ 0
        then dictPop pf.holdings tx.ticker
        else dictSet pf.holdings tx.ticker (hGet pf.holdings tx.ticker - tx.quantity))
    ∧ tx.cash_after = pf'.cash := by
  unfold TransactionManager.sell at h
  cases hv : validate_ticker t with
  | error u => simp [hv] at h
  | ok ct =>
    cases hq : validate_positive_number q with
    | error u => simp [hv, hq] at h
    | ok qty =>
      cases hm : _ensure_market_open mc with
      | error e2 => simp [hv, hq, hm] at h
      | ok u =>
        by_cases ho : hGet pf.holdings ct < qty
        · simp [hv, hq, hm, ho] at h
        · cases hp : _get_price pr with
          | error e2 => simp [hv, hq, hm, ho, hp] at h
          | ok price =>
            simp only [hv, hq, hm, if_neg ho, hp, Prod.mk.injEq] at h
            obtain ⟨hpf', htx⟩ := h
            have htx' := Except.ok.inj htx
            obtain ⟨hq', hqq⟩ := validate_positive_number_ok_iff.1 hq
            subst htx'
            subst hpf'
            subst hqq
            exact ⟨rfl, hq', _get_price_ok_pos hp, rfl, rfl, le_of_not_lt ho, rfl, rfl, rfl, rfl⟩

/-! ### Persistence lemmas -/

/-- Parsing the holdings object written by `save` for an already-normalized
holdings dict (non-blank uppercase tickers, positive quantities, unique keys)
appends exactly those entries to the accumulator. -/
theorem parseHoldings_saved (l : Holdings) :
    ∀ acc : Holdings,
      (∀ kv ∈ l, pyStrip kv.1 ≠ "" ∧ pyUpper kv.1 = kv.1 ∧ 0 < kv.2) →
      (∀ kv ∈ l, dictGet acc kv.1 = Option.none) →
      (l.map Prod.fst).Nodup →
      parseHoldings (l.map fun kv => (kv.1, Json.num kv.2)) acc = .ok (acc ++ l) := by
  induction l with
  | nil => intro acc _ _ _; simp [parseHoldings]
  | cons kv rest ih =>
    intro acc hgood hfresh hnd
    obtain ⟨k, v⟩ := kv
    obtain ⟨hstrip, hupper, hvpos⟩ := hgood _ (List.mem_cons_self _ _)
    rw [List.map_cons, List.nodup_cons] at hnd
    have hfreshk : dictGet acc k = Option.none := hfresh _ (List.mem_cons_self _ _)
    simp only [List.map_cons, parseHoldings, if_neg hstrip, pyFloat]
    rw [if_neg (not_lt.2 (le_of_lt hvpos)), if_pos hvpos, hupper,
      dictSet_append_of_none hfreshk]
    rw [ih (acc ++ [(k, v)])
      (fun kv hkv => hgood _ (List.mem_cons_of_mem _ hkv))
      (fun kv hkv => by
        have hne : ¬ (k = kv.1) := by
          intro hc
          exact hnd.1 (hc ▸ List.mem_map.2 ⟨kv, hkv, rfl⟩)
        rw [dictGet_append_left_none (hfresh _ (List.mem_cons_of_mem _ hkv))]
        simp [dictGet, hne])
      hnd.2]
    simp

/-- A `parseHoldings` run that returns `.ok` saw no malformed entry. -/
theorem parseHoldings_ok_no_bad_entry (entries : List (String × Json)) :
    ∀ (acc res : Holdings), parseHoldings entries acc = .ok res →
      ∀ kv ∈ entries, ¬ holdingsEntryBad kv := by
  induction entries with
  | nil => intro acc res _ kv hkv; simp at hkv
  | cons e rest ih =>
    intro acc res hok kv hkv
    obtain ⟨t, j⟩ := e
    rw [show parseHoldings ((t, j) :: rest) acc
        = (if pyStrip t = "" then .error ()
           else match pyFloat j with
            | Option.none => .error ()
            | some qty =>
              if qty < 0 then .error ()
              else if 0 < qty then parseHoldings rest (dictSet acc (pyUpper t) qty)
              else parseHoldings rest acc) from rfl] at hok
    split at hok
    · exact Except.noConfusion hok
    · rename_i hstrip
      split at hok
      · exact Except.noConfusion hok
      · rename_i q hj
        split at hok
        · exact Except.noConfusion hok
        · rename_i hneg
          rcases List.mem_cons.1 hkv with h1 | h1
          · subst h1
            unfold holdingsEntryBad
            push_neg
            refine ⟨hstrip, ?_, ?_⟩
            · rw [hj]; exact fun hc => Option.noConfusion hc
            · intro q' hq'
              rw [hj] at hq'
              obtain rfl := Option.some.inj hq'
              exact not_lt.1 hneg
          · split at hok
            · exact ih _ _ hok _ h1
            · exact ih _ _ hok _ h1

/-- A successful `parse_portfolio_dict` run contradicts every badness
condition enumerated by the spec. -/
theorem parse_ok_not_bad (fields : List (String × Json)) (p : Portfolio)
    (h : parse_portfolio_dict fields = .ok p) :
    ¬ (schemaBad fields ∨ cashValueBad fields ∨ holdingsBad fields) := by
  unfold parse_portfolio_dict at h
  split at h
  · exact Except.noConfusion h
  · rename_i version hv
    split at h
    · exact Except.noConfusion h
    · rename_i hpe
      rw [not_not] at hpe
      split at h
      · exact Except.noConfusion h
      · rename_i cashRaw hc
        split at h
        · exact Except.noConfusion h
        · rename_i cash hf
          split at h
          · exact Except.noConfusion h
          · rename_i hneg
            rintro (hbad | hbad | hbad)
            · rcases hbad with h1 | ⟨v, hv', hfalse⟩
              · rw [hv] at h1; exact Option.noConfusion h1
              · rw [hv] at hv'
                obtain rfl := Option.some.inj hv'
                rw [hpe] at hfalse
                exact Bool.noConfusion hfalse
            · rcases hbad with ⟨c, q, hc', hf', hq⟩
              rw [hc] at hc'
              obtain rfl := Option.some.inj hc'
              rw [hf] at hf'
              obtain rfl := Option.some.inj hf'
              exact hneg hq
            · rcases hbad with ⟨hj, hget, hbadj⟩
              rw [hget] at h
              simp only [Option.getD_some] at h
              split at h
              · rename_i entries
                have hbadj' : ∃ kv ∈ entries, holdingsEntryBad kv := hbadj
                obtain ⟨kv, hkv, hkvbad⟩ := hbadj'
                split at h
                · exact Except.noConfusion h
                · rename_i holdings hph
                  exact parseHoldings_ok_no_bad_entry entries [] holdings hph kv hkv hkvbad
              · exact Except.noConfusion h

/-! ### Claim theorems -/

/-- C1 (code-bug evidence): an otherwise-valid engine buy passes every check and
debits cash by q·p and increments the holding exactly as the claim states — but
the engine then calls `Transaction(..., timestamp=...)` while the frozen
dataclass in src/models/transaction.py declares no `timestamp` field, so the
record construction is rejected (a TypeError at runtime, raised only after the
ledger mutation) and no Transaction is returned to the caller. -/
theorem buy_mutates_then_transaction_construction_rejected :
    TransactionManager.buy ⟨1000, []⟩ "AAPL" (5/2) (.ok (.float 120)) Option.none
      = (⟨700, [("AAPL", 5/2)]⟩, .ok ⟨"buy", "AAPL", 5/2, 120, 300, 700⟩)
    ∧ dataclass_call_accepted transaction_dataclass_fields engine_transaction_call_kwargs
      = false := by
  constructor
  · norm_num +decide [TransactionManager.buy, validate_ticker, normalize_ticker, pyUpper,
      pyStrip, validate_positive_number, _ensure_market_open, _get_price, PyVal.isNumeric,
      PyVal.toFloat, dictSet, hGet, dictGet]
  · decide

/-- C2: an engine buy that fails with InsufficientFundsError, and an engine sell
that fails with InsufficientHoldingsError, leave the ledger (cash and holdings)
exactly as it was before the call. -/
theorem domain_error_leaves_ledger_unchanged (pf : Portfolio) (t : String) (q : ℚ)
    (pr : PriceResult) (mc : MarketCheck) :
    ((TransactionManager.buy pf t q pr mc).2 = .error .insufficientFunds →
      (TransactionManager.buy pf t q pr mc).1 = pf)
    ∧ ((TransactionManager.sell pf t q pr mc).2 = .error .insufficientHoldings →
      (TransactionManager.sell pf t q pr mc).1 = pf) :=
  ⟨buy_error_unchanged pf t q pr mc .insufficientFunds,
   sell_error_unchanged pf t q pr mc .insufficientHoldings⟩

theorem domain_error_leaves_ledger_unchanged_witness :
    (TransactionManager.buy ⟨100, [("AAPL", 2)]⟩ "AAPL" 10 (.ok (.float 20)) Option.none).1
      = ⟨100, [("AAPL", 2)]⟩
    ∧ (TransactionManager.sell ⟨100, [("AAPL", 2)]⟩ "AAPL" 5 (.ok (.float 20)) Option.none).1
      = ⟨100, [("AAPL", 2)]⟩ :=
  ⟨(domain_error_leaves_ledger_unchanged _ _ _ _ _).1 (by
      norm_num +decide [TransactionManager.buy, validate_ticker, normalize_ticker, pyUpper,
        pyStrip, validate_positive_number, _ensure_market_open, _get_price, PyVal.isNumeric,
        PyVal.toFloat, dictSet, hGet, dictGet]),
   (domain_error_leaves_ledger_unchanged _ _ _ _ _).2 (by
      norm_num +decide [TransactionManager.sell, validate_ticker, normalize_ticker, pyUpper,
        pyStrip, validate_positive_number, _ensure_market_open, hGet, dictGet])⟩

/-- C3: from any ledger with non-negative cash, strictly positive holdings and
unique holdings keys, every engine buy or sell that returns a Transaction
preserves the invariant (cash stays ≥ 0, only positive quantities are stored,
keys stay unique), and a sell of the entire held quantity removes the ticker
key from holdings entirely. -/
theorem trade_preserves_ledger_invariant (pf : Portfolio) (t : String) (q : ℚ)
    (pr : PriceResult) (mc : MarketCheck)
    (hinv : pf.Invariant) (hnd : pf.KeysNodup) :
    (∀ pf' tx, TransactionManager.buy pf t q pr mc = (pf', .ok tx) →
      pf'.Invariant ∧ pf'.KeysNodup)
    ∧ (∀ pf' tx, TransactionManager.sell pf t q pr mc = (pf', .ok tx) →
      (pf'.Invariant ∧ pf'.KeysNodup)
      ∧ (tx.quantity = hGet pf.holdings tx.ticker →
         dictGet pf'.holdings tx.ticker = Option.none)) := by
  unfold Portfolio.Invariant at hinv
  obtain ⟨hcash, hpos⟩ := hinv
  unfold Portfolio.KeysNodup at hnd
  constructor
  · intro pf' tx h
    obtain ⟨-, hq, hp, -, -, -, hle, hcash', hh', -⟩ := buy_ok_spec pf t q pr mc pf' tx h
    refine ⟨⟨?_, ?_⟩, ?_⟩
    · rw [hcash']; linarith
    · intro kv hkv
      rw [hh'] at hkv
      rcases mem_dictSet hkv with h1 | h1
      · rw [h1]
        have hnn := hGet_nonneg (h := pf.holdings) (t := tx.ticker) hpos
        dsimp only
        linarith
      · exact hpos _ h1
    · unfold Portfolio.KeysNodup
      rw [hh']
      exact nodup_keys_dictSet hnd
  · intro pf' tx h
    obtain ⟨-, hq, hp, -, -, hown, -, hcash', hh', -⟩ := sell_ok_spec pf t q pr mc pf' tx h
    have hmul : 0 ≤ tx.quantity * tx.price := le_of_lt (mul_pos hq hp)
    refine ⟨⟨⟨?_, ?_⟩, ?_⟩, ?_⟩
    · rw [hcash']; linarith
    · intro kv hkv
      rw [hh'] at hkv
      by_cases hrem : hGet pf.holdings tx.ticker - tx.quantity ≤ 0
      · rw [if_pos hrem] at hkv
        exact hpos _ ((dictPop_sublist _ _).subset hkv)
      · rw [if_neg hrem] at hkv
        rcases mem_dictSet hkv with h1 | h1
        · rw [h1]
          dsimp only
          linarith [lt_of_not_le hrem]
        · exact hpos _ h1
    · unfold Portfolio.KeysNodup
      rw [hh']
      by_cases hrem : hGet pf.holdings tx.ticker - tx.quantity ≤ 0
      · rw [if_pos hrem]
        exact List.Nodup.sublist (List.Sublist.map Prod.fst (dictPop_sublist _ _)) hnd
      · rw [if_neg hrem]
        exact nodup_keys_dictSet hnd
    · intro hfull
      rw [hh', if_pos (by rw [← hfull]; simp)]
      exact dictGet_dictPop_self hnd

theorem trade_preserves_ledger_invariant_witness :
    (Portfolio.Invariant ⟨1020, []⟩ ∧ Portfolio.KeysNodup ⟨1020, []⟩)
    ∧ dictGet ([] : Holdings) "AAPL" = Option.none :=
  have happ := (trade_preserves_ledger_invariant ⟨1000, [("AAPL", 2)]⟩ "AAPL" 2
      (.ok (.float 10)) Option.none
      (by
        unfold Portfolio.Invariant
        refine ⟨by norm_num, ?_⟩
        intro kv hkv
        rw [List.mem_singleton] at hkv
        subst hkv
        norm_num)
      (by unfold Portfolio.KeysNodup; simp)).2
    ⟨1020, []⟩ ⟨"sell", "AAPL", 2, 10, 20, 1020⟩
    (by
      norm_num +decide [TransactionManager.sell, validate_ticker, normalize_ticker, pyUpper,
        pyStrip, validate_positive_number, _ensure_market_open, _get_price, PyVal.isNumeric,
        PyVal.toFloat, dictPop, hGet, dictGet])
  ⟨happ.1, happ.2 (by norm_num +decide [hGet, dictGet])⟩

/-- C4 counterexample: owning 2 shares and selling 5 while the price provider
raises yields InsufficientHoldingsError, not PriceFetchError — so the claimed
order (price acquisition before the holdings check) does not hold in `sell`. -/
theorem sell_price_order_counterexample :
    TransactionManager.sell ⟨1000, [("AAPL", 2)]⟩ "AAPL" 5 (.error ()) Option.none
      = (⟨1000, [("AAPL", 2)]⟩, .error .insufficientHoldings)
    ∧ (TransactionManager.sell ⟨1000, [("AAPL", 2)]⟩ "AAPL" 5 (.error ()) Option.none).2
      ≠ .error .priceFetch := by
  have h : TransactionManager.sell ⟨1000, [("AAPL", 2)]⟩ "AAPL" 5 (.error ()) Option.none
      = (⟨1000, [("AAPL", 2)]⟩, .error .insufficientHoldings) := by
    norm_num +decide [TransactionManager.sell, validate_ticker, normalize_ticker, pyUpper,
      pyStrip, validate_positive_number, _ensure_market_open, hGet, dictGet]
  refine ⟨h, ?_⟩
  rw [h]
  decide

/-- C4 (amended): in the engine's sell, the holdings-sufficiency check precedes
price acquisition.  With a valid ticker, positive quantity and no market gate
failure: selling more than owned fails with InsufficientHoldingsError even when
the price provider would fail, and selling within holdings while the provider
fails (or returns a non-positive/non-numeric result) fails with
PriceFetchError; the ledger is unchanged in both cases. -/
theorem sell_holdings_check_precedes_price_fetch (pf : Portfolio) (t ct : String) (q : ℚ)
    (pr : PriceResult) (mc : MarketCheck)
    (hct : validate_ticker t = .ok ct) (hq : 0 < q)
    (hmkt : _ensure_market_open mc = .ok ())
    (hpr : _get_price pr = .error .priceFetch) :
    (hGet pf.holdings ct < q →
      TransactionManager.sell pf t q pr mc = (pf, .error .insufficientHoldings))
    ∧ (q ≤ hGet pf.holdings ct →
      TransactionManager.sell pf t q pr mc = (pf, .error .priceFetch)) := by
  unfold TransactionManager.sell
  simp only [hct, validate_positive_number_ok_of_pos hq, hmkt, hpr]
  constructor
  · intro ho
    rw [if_pos ho]
  · intro ho
    rw [if_neg (not_lt.2 ho)]

theorem sell_holdings_check_precedes_price_fetch_witness :
    TransactionManager.sell ⟨1000, [("AAPL", 2)]⟩ "AAPL" 3 (.error ()) Option.none
      = (⟨1000, [("AAPL", 2)]⟩, .error .insufficientHoldings)
    ∧ TransactionManager.sell ⟨1000, [("AAPL", 2)]⟩ "AAPL" 1 (.error ()) Option.none
      = (⟨1000, [("AAPL", 2)]⟩, .error .priceFetch) :=
  ⟨(sell_holdings_check_precedes_price_fetch ⟨1000, [("AAPL", 2)]⟩ "AAPL" "AAPL" 3
      (.error ()) Option.none
      (by norm_num +decide [validate_ticker, normalize_ticker, pyUpper, pyStrip])
      (by norm_num) rfl rfl).1
    (by norm_num +decide [hGet, dictGet]),
   (sell_holdings_check_precedes_price_fetch ⟨1000, [("AAPL", 2)]⟩ "AAPL" "AAPL" 1
      (.error ()) Option.none
      (by norm_num +decide [validate_ticker, normalize_ticker, pyUpper, pyStrip])
      (by norm_num) rfl rfl).2
    (by norm_num +decide [hGet, dictGet])⟩

/-- C5 counterexample: the ledger-level `Portfolio.buy` with quantity −5 at
price 10 does not fail — its only check is `cost > cash`, and the negative cost
−50 passes it — so cash is *credited* to 10050 and a −5 holding is stored,
contradicting the claim that such a call fails leaving state unchanged. -/
theorem portfolio_buy_negative_quantity_counterexample :
    Portfolio.buy ⟨10000, []⟩ "AAPL" (-5) 10 = (⟨10050, [("AAPL", -5)]⟩, .ok ())
    ∧ (⟨10050, [("AAPL", -5)]⟩ : Portfolio) ≠ ⟨10000, []⟩ := by
  constructor
  · norm_num [Portfolio.buy, hGet, dictGet, dictSet]
  · intro hc
    rw [Portfolio.mk.injEq] at hc
    exact List.noConfusion hc.2

/-- C5 (amended): the ledger-level buy checks only `quantity*price > cash`: it
fails with the insufficient-funds ValueError (state unchanged) exactly when the
cost exceeds cash, and otherwise proceeds and mutates — debiting cash by the
cost and adding `quantity` to the holding — even when `quantity ≤ 0` or
`price ≤ 0`. -/
theorem portfolio_buy_checks_only_cost_vs_cash (pf : Portfolio) (t : String) (q p : ℚ) :
    (q * p > pf.cash → Portfolio.buy pf t q p = (pf, .error ()))
    ∧ (q * p ≤ pf.cash →
      (Portfolio.buy pf t q p).2 = .ok ()
      ∧ ((Portfolio.buy pf t q p).1).cash = pf.cash - q * p
      ∧ hGet ((Portfolio.buy pf t q p).1).holdings t = hGet pf.holdings t + q) := by
  unfold Portfolio.buy
  constructor
  · intro hc
    rw [if_pos hc]
  · intro hc
    rw [if_neg (not_lt.2 hc)]
    exact ⟨rfl, rfl, hGet_dictSet_self⟩

theorem portfolio_buy_checks_only_cost_vs_cash_witness :
    Portfolio.buy ⟨100, []⟩ "AAPL" 10 20 = (⟨100, []⟩, .error ())
    ∧ (Portfolio.buy ⟨1000, []⟩ "AAPL" 2 3).2 = .ok () :=
  ⟨(portfolio_buy_checks_only_cost_vs_cash ⟨100, []⟩ "AAPL" 10 20).1 (by norm_num),
   ((portfolio_buy_checks_only_cost_vs_cash ⟨1000, []⟩ "AAPL" 2 3).2 (by norm_num)).1⟩

/-- C6: on the history [BUY 10@100, BUY 10@110, SELL 5@120] with latest price
115 injected for AAPL, `compute_pl` returns realized 75, unrealized 150 (15
shares at average cost 105) and total 225, with the matching per-ticker entry. -/
theorem compute_pl_average_cost_example :
    compute_pl [⟨"AAPL", "BUY", 10, 100⟩, ⟨"AAPL", "BUY", 10, 110⟩, ⟨"AAPL", "SELL", 5, 120⟩]
      [("AAPL", 115)] (fun _ => Option.none)
      = ⟨false, 75, 150, 225, [("AAPL", ⟨15, 105, 115, 150⟩)]⟩ := by
  norm_num +decide [compute_pl, plStep, unrealStep, normalizePrices, dictSetdefault,
    dictSet, dictGet, hGet, round4, pyRoundInt, pyUpper, pyStrip]

/-- C7: on an empty or missing (or unreadable) transaction history,
`compute_pl` returns exactly the all-zero result with the no_data flag and an
empty per-ticker map, for every injected price map and price fetcher; being a
total function, it never raises. -/
theorem compute_pl_empty_history_all_zero (latest : Holdings) (fetch : String → Option ℚ) :
    compute_pl (load_transactions_df .missing) latest fetch = ⟨true, 0, 0, 0, []⟩
    ∧ compute_pl (load_transactions_df .unreadable) latest fetch = ⟨true, 0, 0, 0, []⟩
    ∧ compute_pl [] latest fetch = ⟨true, 0, 0, 0, []⟩ :=
  ⟨rfl, rfl, rfl⟩

/-- C8 counterexample: saving a ledger whose holdings key is lowercase "aapl"
and loading it back yields the uppercased key "AAPL" (parse_portfolio_dict
stores `ticker.upper()`), so the loaded holdings differ from the saved ones. -/
theorem save_load_roundtrip_counterexample :
    (load_portfolio (.content (savePayload ⟨10000, [("aapl", 5)]⟩ "t"))).holdings
      = [("AAPL", 5)]
    ∧ (load_portfolio (.content (savePayload ⟨10000, [("aapl", 5)]⟩ "t"))).holdings
      ≠ [("aapl", 5)] := by
  have h : load_portfolio (.content (savePayload ⟨10000, [("aapl", 5)]⟩ "t"))
      = ⟨10000, [("AAPL", 5)]⟩ := by
    norm_num +decide [load_portfolio, savePayload, parse_portfolio_dict, parseHoldings,
      dictGet, dictSet, pyEqOne, pyFloat, pyStrip, pyUpper]
  rw [h]
  refine ⟨rfl, ?_⟩
  decide

/-- C8 (amended): for every ledger with non-negative cash whose holdings are
already in stored form — non-blank uppercase ticker keys, unique, with strictly
positive quantities — `save()` followed by `load()` reproduces cash and
holdings exactly. -/
theorem save_load_roundtrip_normalized (pf : Portfolio) (ts : String)
    (hcash : 0 ≤ pf.cash)
    (hkeys : ∀ kv ∈ pf.holdings, pyStrip kv.1 ≠ "" ∧ pyUpper kv.1 = kv.1 ∧ 0 < kv.2)
    (hnd : (pf.holdings.map Prod.fst).Nodup) :
    load_portfolio (.content (savePayload pf ts)) = pf := by
  unfold load_portfolio savePayload
  have hparse : parse_portfolio_dict [("schema_version", Json.num 1), ("saved_at", Json.str ts),
      ("cash", Json.num pf.cash),
      ("holdings", Json.obj (pf.holdings.map fun kv => (kv.1, Json.num kv.2)))] = .ok pf := by
    unfold parse_portfolio_dict
    norm_num +decide [dictGet, pyEqOne, pyFloat]
    rw [if_neg (not_lt.2 hcash),
      parseHoldings_saved pf.holdings [] hkeys (fun kv _ => rfl) hnd]
    simp
  simp only [List.cons_append, List.nil_append] at hparse ⊢
  rw [hparse]

theorem save_load_roundtrip_normalized_witness :
    load_portfolio (.content (savePayload ⟨42, [("AAPL", 3)]⟩ "ts")) = ⟨42, [("AAPL", 3)]⟩ :=
  save_load_roundtrip_normalized ⟨42, [("AAPL", 3)]⟩ "ts" (by norm_num)
    (by
      intro kv hkv
      rw [List.mem_singleton] at hkv
      subst hkv
      refine ⟨by decide, by decide, by norm_num⟩)
    (by simp)

/-- C9: for every portfolio-file state the spec calls invalid — missing path,
non-file path, unreadable or non-JSON content, non-object JSON, absent or
mismatched schema_version, negative cash, or malformed holdings —
`load_portfolio` returns the freshly-initialized default ledger (cash 10000,
empty holdings); being a total function, no exception escapes. -/
theorem load_portfolio_bad_file_returns_default (fs : FileState)
    (hbad : badPortfolioFile fs) : load_portfolio fs = defaultPortfolio := by
  cases fs with
  | missing => rfl
  | notAFile => rfl
  | unreadable => rfl
  | content j =>
    cases j with
    | obj fields =>
      unfold load_portfolio
      cases hp : parse_portfolio_dict fields with
      | error e => simp only [hp]
      | ok p =>
        exact absurd hbad (parse_ok_not_bad fields p hp)
    | null => rfl
    | bool b => rfl
    | num q => rfl
    | str s => rfl
    | arr => rfl

theorem load_portfolio_bad_file_returns_default_witness :
    load_portfolio (.content (.obj [("schema_version", .null)])) = defaultPortfolio :=
  load_portfolio_bad_file_returns_default (.content (.obj [("schema_version", .null)]))
    (Or.inl (Or.inr ⟨.null, rfl, rfl⟩))

/-- C10: the engine's price validation treats Python booleans as numbers
(`isinstance(True, int)` holds), so a provider returning True makes a buy
proceed at price 1.0; and `_get_price` maps exactly the non-(bool/int/float)
returns and the non-positive values to PriceFetchError, passing every other
numeric value through. -/
theorem price_validation_accepts_bool :
    TransactionManager.buy ⟨1000, []⟩ "AAPL" 2 (.ok (.bool true)) Option.none
      = (⟨998, [("AAPL", 2)]⟩, .ok ⟨"buy", "AAPL", 2, 1, 2, 998⟩)
    ∧ (∀ v : PyVal, v.isNumeric = false → _get_price (.ok v) = .error .priceFetch)
    ∧ (∀ v : PyVal, v.toFloat ≤ 0 → _get_price (.ok v) = .error .priceFetch)
    ∧ (∀ v : PyVal, v.isNumeric = true → 0 < v.toFloat → _get_price (.ok v) = .ok v.toFloat) := by
  refine ⟨?_, ?_, ?_, ?_⟩
  · norm_num +decide [TransactionManager.buy, validate_ticker, normalize_ticker, pyUpper,
      pyStrip, validate_positive_number, _ensure_market_open, _get_price, PyVal.isNumeric,
      PyVal.toFloat, dictSet, hGet, dictGet]
  · intro v hv
    simp [_get_price, hv]
  · intro v hv
    by_cases hnum : v.isNumeric
    · simp [_get_price, hnum, hv]
    · simp [_get_price, hnum]
  · intro v hnum hpos
    simp [_get_price, hnum, not_le.2 hpos]

theorem price_validation_accepts_bool_witness :
    _get_price (.ok (.str "x")) = .error .priceFetch
    ∧ _get_price (.ok (.float (-3))) = .error .priceFetch
    ∧ _get_price (.ok (.float 7)) = .ok 7 :=
  ⟨price_validation_accepts_bool.2.1 (.str "x") rfl,
   price_validation_accepts_bool.2.2.1 (.float (-3)) (by norm_num [PyVal.toFloat]),
   price_validation_accepts_bool.2.2.2 (.float 7) rfl (by norm_num [PyVal.toFloat])⟩

end StockSim
